import Mathlib

/-!
Shallow embedding of the shipping-cost reconciliation engine of
`src/app.py` (functions `translate_country`, `process_data`,
`identify_issues`, constants `COUNTRY_MAP`, `RMB_TO_USD`).

Modelling conventions:
* pandas numeric cells are modelled by `Val`: an exact rational (`num`),
  the missing value NaN (`nan`), or the two IEEE-754 infinities produced
  by float division (`pinf`, `ninf`).  Arithmetic follows IEEE-754
  special-value semantics with rationals in place of binary floats;
  negative zero is not modelled and rounding is round-half-up rather
  than Python's round-half-even (no claim depends on either detail).
* string-valued cells are `Option String`, `none` standing for NaN.
* `pd.merge(shopify_df, shipping_df[...], on='tracking_number',
  how='outer', indicator=True)` is modelled by `mergeOuter`: for each
  left (shopify) row, all right (shipping) rows with an equal key are
  emitted in source order (pairwise cross product), a left row with no
  match is emitted once tagged `left_only`, and right rows whose key
  matches no left row are appended tagged `right_only`.  As in pandas,
  a NaN key compares equal to a NaN key, so NaN is joined like any
  ordinary key value.
* the column-resolution behaviour of the whole run — `process_data`
  followed by the unconditional `identify_issues` call (which pandas
  column accesses raise `KeyError` for a missing label) — is modelled
  separately by `runColumns`, operating on the lists of column names
  of the two raw tables.
-/

namespace ShippingAnalyzer

/-- A pandas numeric cell: exact rational, NaN, or an infinity. -/
inductive Val where
  | num (q : ℚ)
  | nan
  | pinf
  | ninf
deriving DecidableEq

/-- IEEE-754 multiplication on `Val` cells. -/
def Val.mul : Val → Val → Val
  | Val.nan, _ => Val.nan
  | _, Val.nan => Val.nan
  | Val.num a, Val.num b => Val.num (a * b)
  | Val.pinf, Val.num b => if 0 < b then Val.pinf else if b < 0 then Val.ninf else Val.nan
  | Val.num a, Val.pinf => if 0 < a then Val.pinf else if a < 0 then Val.ninf else Val.nan
  | Val.ninf, Val.num b => if 0 < b then Val.ninf else if b < 0 then Val.pinf else Val.nan
  | Val.num a, Val.ninf => if 0 < a then Val.ninf else if a < 0 then Val.pinf else Val.nan
  | Val.pinf, Val.pinf => Val.pinf
  | Val.pinf, Val.ninf => Val.ninf
  | Val.ninf, Val.pinf => Val.ninf
  | Val.ninf, Val.ninf => Val.pinf

/-- IEEE-754 division on `Val` cells: a nonzero float divided by zero
gives a signed infinity, `0/0` gives NaN, and no exception is raised. -/
def Val.div : Val → Val → Val
  | Val.nan, _ => Val.nan
  | _, Val.nan => Val.nan
  | Val.num a, Val.num b =>
      if b = 0 then (if a = 0 then Val.nan else if 0 < a then Val.pinf else Val.ninf)
      else Val.num (a / b)
  | Val.pinf, Val.num b => if b < 0 then Val.ninf else Val.pinf
  | Val.ninf, Val.num b => if b < 0 then Val.pinf else Val.ninf
  | Val.num _, Val.pinf => Val.num 0
  | Val.num _, Val.ninf => Val.num 0
  | Val.pinf, Val.pinf => Val.nan
  | Val.pinf, Val.ninf => Val.nan
  | Val.ninf, Val.pinf => Val.nan
  | Val.ninf, Val.ninf => Val.nan

/-- IEEE-754 subtraction on `Val` cells. -/
def Val.sub : Val → Val → Val
  | Val.nan, _ => Val.nan
  | _, Val.nan => Val.nan
  | Val.num a, Val.num b => Val.num (a - b)
  | Val.pinf, Val.num _ => Val.pinf
  | Val.ninf, Val.num _ => Val.ninf
  | Val.num _, Val.pinf => Val.ninf
  | Val.num _, Val.ninf => Val.pinf
  | Val.pinf, Val.pinf => Val.nan
  | Val.pinf, Val.ninf => Val.pinf
  | Val.ninf, Val.pinf => Val.ninf
  | Val.ninf, Val.ninf => Val.nan

/-- `Series.round(2)`: round a finite value to 2 decimal places, pass
NaN and infinities through. -/
def Val.roundTo2 : Val → Val
  | Val.num q => Val.num (((round (q * 100) : ℤ) : ℚ) / 100)
  | v => v

/-- The bilingual country dictionary `COUNTRY_MAP` of `src/app.py`. -/
def COUNTRY_MAP : List (String × String) :=
  [("美国", "United States"),
   ("英国", "United Kingdom"),
   ("澳大利亚", "Australia"),
   ("爱尔兰", "Ireland"),
   ("加拿大", "Canada"),
   ("荷兰", "Netherlands"),
   ("挪威", "Norway"),
   ("阿联酋", "United Arab Emirates"),
   ("德国", "Germany"),
   ("丹麦", "Denmark"),
   ("以色列", "Israel"),
   ("瑞典", "Sweden"),
   ("芬兰", "Finland"),
   ("瑞士", "Switzerland"),
   ("新西兰", "New Zealand"),
   ("法国", "France"),
   ("意大利", "Italy"),
   ("西班牙", "Spain"),
   ("比利时", "Belgium"),
   ("奥地利", "Austria"),
   ("波兰", "Poland"),
   ("葡萄牙", "Portugal"),
   ("日本", "Japan"),
   ("韩国", "South Korea"),
   ("新加坡", "Singapore"),
   ("香港", "Hong Kong"),
   ("台湾", "Taiwan"),
   ("马来西亚", "Malaysia"),
   ("泰国", "Thailand"),
   ("印度", "India"),
   ("墨西哥", "Mexico"),
   ("巴西", "Brazil"),
   ("南非", "South Africa"),
   ("希腊", "Greece"),
   ("捷克", "Czech Republic"),
   ("匈牙利", "Hungary"),
   ("罗马尼亚", "Romania"),
   ("斯洛伐克", "Slovakia"),
   ("斯洛文尼亚", "Slovenia"),
   ("克罗地亚", "Croatia"),
   ("保加利亚", "Bulgaria"),
   ("塞浦路斯", "Cyprus"),
   ("爱沙尼亚", "Estonia"),
   ("拉脱维亚", "Latvia"),
   ("立陶宛", "Lithuania"),
   ("卢森堡", "Luxembourg"),
   ("马耳他", "Malta"),
   ("冰岛", "Iceland"),
   ("土耳其", "Turkey"),
   ("俄罗斯", "Russia"),
   ("乌克兰", "Ukraine"),
   ("沙特阿拉伯", "Saudi Arabia"),
   ("卡塔尔", "Qatar"),
   ("科威特", "Kuwait"),
   ("巴林", "Bahrain"),
   ("阿曼", "Oman"),
   ("菲律宾", "Philippines"),
   ("印度尼西亚", "Indonesia"),
   ("越南", "Vietnam")]

/-- The fixed exchange-rate constant `RMB_TO_USD = 0.139`. -/
def RMB_TO_USD : ℚ := 139 / 1000

/-- `translate_country`: dictionary lookup with the input itself as the
default on a miss (`COUNTRY_MAP.get(chinese_name, chinese_name)`). -/
def translate_country (chinese_name : String) : String :=
  (COUNTRY_MAP.lookup chinese_name).getD chinese_name

/-- A raw shipping row after the column rename of lines 199-206:
the fields `process_data` reads from the shipping table. -/
structure ShipRow where
  tracking_number : Option String
  shipping_cost_rmb : Val
  weight_kg : Val
  ship_date : Option String
  country_chinese : Option String
  internal_order_id : Option String
deriving DecidableEq

/-- The six shipping-side columns selected into the merge at line 227,
after the derived columns `shipping_cost_usd` (line 209) and
`country_from_shipping` (line 212) have been added. -/
structure ShipN where
  tracking_number : Option String
  shipping_cost_usd : Val
  shipping_cost_rmb : Val
  weight_kg : Val
  ship_date : Option String
  country_from_shipping : Option String
deriving DecidableEq

/-- A shopify order row after the column rename of lines 215-222. -/
structure OrderRow where
  order_number : Option String
  order_date : Option String
  tracking_number : Option String
  net_payout : Val
  country : Option String
  product_cost : Val
deriving DecidableEq

/-- The pandas merge `indicator=True` tag (`_merge` column); the left
frame is the shopify table, so `left_only` is an order-only row and
`right_only` a shipment-only row. -/
inductive MergeTag where
  | both
  | left_only
  | right_only
deriving DecidableEq

/-- One row of `merged_df`: all shopify columns, the six selected
shipping columns, the `_merge` tag and the two derived metrics. -/
structure MergedRow where
  order_number : Option String
  order_date : Option String
  tracking_number : Option String
  net_payout : Val
  country : Option String
  product_cost : Val
  shipping_cost_usd : Val
  shipping_cost_rmb : Val
  weight_kg : Val
  ship_date : Option String
  country_from_shipping : Option String
  tag : MergeTag
  shipping_pct : Val
  profit : Val
deriving DecidableEq

/-- Lines 209 and 212: populate `shipping_cost_usd` and
`country_from_shipping` on a shipping row.  `Series.apply` applies
`translate_country` cell-wise; on a NaN cell the dictionary lookup
misses and returns the NaN default, hence the `Option.map`. -/
def normalizeShip (r : ShipRow) : ShipN :=
  { tracking_number := r.tracking_number
    shipping_cost_usd := Val.mul r.shipping_cost_rmb (Val.num RMB_TO_USD)
    shipping_cost_rmb := r.shipping_cost_rmb
    weight_kg := r.weight_kg
    ship_date := r.ship_date
    country_from_shipping := r.country_chinese.map translate_country }

/-- A joined row to which both sides contributed (`_merge = 'both'`). -/
def mkBoth (o : OrderRow) (s : ShipN) : MergedRow :=
  { order_number := o.order_number
    order_date := o.order_date
    tracking_number := o.tracking_number
    net_payout := o.net_payout
    country := o.country
    product_cost := o.product_cost
    shipping_cost_usd := s.shipping_cost_usd
    shipping_cost_rmb := s.shipping_cost_rmb
    weight_kg := s.weight_kg
    ship_date := s.ship_date
    country_from_shipping := s.country_from_shipping
    tag := MergeTag.both
    shipping_pct := Val.nan
    profit := Val.nan }

/-- A joined row with only the shopify side (`_merge = 'left_only'`);
the shipping columns are NaN. -/
def mkLeftOnly (o : OrderRow) : MergedRow :=
  { order_number := o.order_number
    order_date := o.order_date
    tracking_number := o.tracking_number
    net_payout := o.net_payout
    country := o.country
    product_cost := o.product_cost
    shipping_cost_usd := Val.nan
    shipping_cost_rmb := Val.nan
    weight_kg := Val.nan
    ship_date := none
    country_from_shipping := none
    tag := MergeTag.left_only
    shipping_pct := Val.nan
    profit := Val.nan }

/-- A joined row with only the shipping side (`_merge = 'right_only'`);
the shopify columns are NaN. -/
def mkRightOnly (s : ShipN) : MergedRow :=
  { order_number := none
    order_date := none
    tracking_number := s.tracking_number
    net_payout := Val.nan
    country := none
    product_cost := Val.nan
    shipping_cost_usd := s.shipping_cost_usd
    shipping_cost_rmb := s.shipping_cost_rmb
    weight_kg := s.weight_kg
    ship_date := s.ship_date
    country_from_shipping := s.country_from_shipping
    tag := MergeTag.right_only
    shipping_pct := Val.nan
    profit := Val.nan }

/-- The joined rows contributed by one shopify row: one `both` row per
shipping row carrying an equal tracking key (in source order), or a
single `left_only` row when no shipping row matches.  As in pandas,
equality of keys includes NaN = NaN. -/
def emitLeft (ss : List ShipN) (o : OrderRow) : List MergedRow :=
  if (ss.filter fun s => decide (s.tracking_number = o.tracking_number)).isEmpty
  then [mkLeftOnly o]
  else (ss.filter fun s => decide (s.tracking_number = o.tracking_number)).map (mkBoth o)

/-- Left part of the outer merge: the shopify rows in source order,
each expanded by `emitLeft`. -/
def mergeLeft (os : List OrderRow) (ss : List ShipN) : List MergedRow :=
  match os with
  | [] => []
  | o :: rest => emitLeft ss o ++ mergeLeft rest ss

/-- Right part of the outer merge: shipping rows whose tracking key
matches no shopify row, appended tagged `right_only`. -/
def mergeRight (os : List OrderRow) (ss : List ShipN) : List MergedRow :=
  (ss.filter fun s => os.all fun o => decide (o.tracking_number ≠ s.tracking_number)).map
    mkRightOnly

/-- The full outer merge of lines 225-231 (`pd.merge(shopify_df,
shipping_df[...], on='tracking_number', how='outer', indicator=True)`). -/
def mergeOuter (os : List OrderRow) (ss : List ShipN) : List MergedRow :=
  mergeLeft os ss ++ mergeRight os ss

/-- Lines 234-237: the whole-column assignments of `shipping_pct`
(`(shipping_cost_usd / net_payout * 100).round(2)`) and `profit`
(`net_payout - product_cost - shipping_cost_usd`). -/
def addDerived (r : MergedRow) : MergedRow :=
  { r with
    shipping_pct := Val.roundTo2 (Val.mul (Val.div r.shipping_cost_usd r.net_payout) (Val.num 100))
    profit := Val.sub (Val.sub r.net_payout r.product_cost) r.shipping_cost_usd }

/-- The value-level behaviour of `process_data`: normalize the shipping
rows, outer-merge with the shopify rows on the tracking key, then add
the two derived metric columns. -/
def processData (ss : List ShipRow) (os : List OrderRow) : List MergedRow :=
  (mergeOuter os (ss.map normalizeShip)).map addDerived

/-- Number of shipping input rows carrying tracking key `k`. -/
def countShip (ss : List ShipRow) (k : Option String) : Nat :=
  ss.countP fun s => decide (s.tracking_number = k)

/-- Number of normalized shipping rows carrying tracking key `k`. -/
def countShipN (ss : List ShipN) (k : Option String) : Nat :=
  ss.countP fun s => decide (s.tracking_number = k)

/-- Number of shopify input rows carrying tracking key `k`. -/
def countOrd (os : List OrderRow) (k : Option String) : Nat :=
  os.countP fun o => decide (o.tracking_number = k)

/-- Number of joined rows carrying tracking key `k`. -/
def countKey (rows : List MergedRow) (k : Option String) : Nat :=
  rows.countP fun r => decide (r.tracking_number = k)

/-- `pat` occurs at the start of `l`. -/
def listHasPre : List Char → List Char → Bool
  | [], _ => true
  | _ :: _, [] => false
  | p :: ps, c :: cs => p = c && listHasPre ps cs

/-- `pat` occurs as a contiguous sublist of `l`. -/
def listHasSub (pat : List Char) : List Char → Bool
  | [] => pat.isEmpty
  | c :: cs => listHasPre pat (c :: cs) || listHasSub pat cs

/-- Literal-substring containment, the effect of
`Series.str.contains('4PX')` on a string cell (the pattern has no
regular-expression metacharacters). -/
def strHasSub (s pat : String) : Bool :=
  listHasSub pat.toList s.toList

/-- `str.contains('4PX', na=False)` on a tracking-key cell: `false` on
a NaN cell, literal-substring test otherwise. -/
def trackContains4PX : Option String → Bool
  | none => false
  | some t => strHasSub t ("4PX")

/-- One entry of `issues['unmatched_shipments']`. -/
structure UnmatchedShipEntry where
  tracking : Option String
  shipping_cost : Val
  ship_date : Option String
  country : Option String
deriving DecidableEq

/-- One entry of `issues['unmatched_orders']`. -/
structure UnmatchedOrderEntry where
  order : Option String
  tracking : Option String
  net_payout : Val
  country : Option String
deriving DecidableEq

/-- One entry of `issues['multi_tracking']`. -/
structure MultiTrackingEntry where
  order : String
  count : Nat
  trackings : List (Option String)
  net_payout : Val
deriving DecidableEq

/-- One entry of `issues['country_mismatch']`. -/
structure CountryMismatchEntry where
  order : Option String
  tracking : Option String
  shopify_country : Option String
  shipping_country : Option String
deriving DecidableEq

/-- The four collections of `identify_issues`. -/
structure Issues where
  unmatched_shipments : List UnmatchedShipEntry
  unmatched_orders : List UnmatchedOrderEntry
  multi_tracking : List MultiTrackingEntry
  country_mismatch : List CountryMismatchEntry
deriving DecidableEq

/-- Distinct elements of `l` not in `seen`, keeping first occurrences
in order. -/
def uniqAux (seen : List String) : List String → List String
  | [] => []
  | x :: xs => if x ∈ seen then uniqAux seen xs else x :: uniqAux (x :: seen) xs

/-- Distinct elements of `l`, keeping first occurrences in order. -/
def uniqKeep (l : List String) : List String :=
  uniqAux [] l

/-- The shopify rows whose (non-NaN) order number equals `oid`
(`shopify_df[shopify_df['order_number'] == order_num]`). -/
def orderRowsFor (os : List OrderRow) (oid : String) : List OrderRow :=
  os.filter fun r => decide (r.order_number = some oid)

/-- Lines 273-283: the multi-tracking detector.  `value_counts()`
skips NaN order numbers and the grouping is on order-number equality;
the entry for a flagged order carries the row count, the full list of
tracking keys of its rows in source order, and the net payout of the
first such row.  `value_counts` enumerates keys ordered by descending
count; since no claim concerns the order of entries, the enumeration
is modelled in first-occurrence order. -/
def multiTracking (os : List OrderRow) : List MultiTrackingEntry :=
  (uniqKeep (os.filterMap fun r => r.order_number)).filterMap fun oid =>
    let rows := orderRowsFor os oid
    if 1 < rows.length then
      some { order := oid
             count := rows.length
             trackings := rows.map fun r => r.tracking_number
             net_payout := ((rows.head?).map fun r => r.net_payout).getD Val.nan }
    else none

/-- Elementwise pandas `!=` on two string cells: NaN compares unequal
to everything, including another NaN. -/
def pandasStrNe (a b : Option String) : Bool :=
  match a, b with
  | some x, some y => decide (x ≠ y)
  | _, _ => true

/-- `identify_issues` (lines 241-297). -/
def identifyIssues (merged : List MergedRow) (shopify : List OrderRow) : Issues :=
  { unmatched_shipments :=
      (merged.filter fun r => decide (r.tag = MergeTag.right_only)).map fun r =>
        { tracking := r.tracking_number
          shipping_cost := r.shipping_cost_usd
          ship_date := r.ship_date
          country := r.country_from_shipping }
    unmatched_orders :=
      (merged.filter fun r =>
          decide (r.tag = MergeTag.left_only) && trackContains4PX r.tracking_number).map fun r =>
        { order := r.order_number
          tracking := r.tracking_number
          net_payout := r.net_payout
          country := r.country }
    multi_tracking := multiTracking shopify
    country_mismatch :=
      (((merged.filter fun r => decide (r.tag = MergeTag.both)).filter fun r =>
          pandasStrNe r.country r.country_from_shipping).filter fun r =>
            r.country.isSome && r.country_from_shipping.isSome).map fun r =>
        { order := r.order_number
          tracking := r.tracking_number
          shopify_country := r.country
          shipping_country := r.country_from_shipping } }

/-- Rename map for the shipping table (lines 199-206). -/
def renameShipCol (c : String) : String :=
  if c = "物流单号" then ("tracking_number")
  else if c = "收货时间" then ("ship_date")
  else if c = "总金额" then ("shipping_cost_rmb")
  else if c = "国家/计费分区" then ("country_chinese")
  else if c = "计费重" then ("weight_kg")
  else if c = "客户单号" then ("internal_order_id")
  else c

/-- Rename map for the shopify table (lines 215-222). -/
def renameShopCol (c : String) : String :=
  if c = "Order" then ("order_number")
  else if c = "Order created at date" then ("order_date")
  else if c = "Tracking number" then ("tracking_number")
  else if c = "Net payout" then ("net_payout")
  else if c = "Shipping country" then ("country")
  else if c = "Cost" then ("product_cost")
  else c

/-- Column resolution of the whole run (`process_data` followed by the
unconditional `identify_issues` call): given the column-name lists of
the two raw tables, replay the pandas column accesses that can raise
`KeyError` for a missing label, in program order, and return a missing
canonical field name on failure or the renamed column lists on
success.  The accesses replayed are: line 209 (`shipping_cost_rmb`),
line 212 (`country_chinese`), the line-227 selection
(`tracking_number`, `weight_kg`, `ship_date`; the already-derived
`shipping_cost_usd`/`shipping_cost_rmb`/`country_from_shipping` cannot
be missing), the merge key on the shopify frame (`tracking_number`),
lines 234/237 (`net_payout`, `product_cost`), and the unconditional
accesses of `identify_issues`: line 274 (`order_number`) and line 287
(`country`; `country_from_shipping` and `_merge` are always present).
The per-row loops of `identify_issues` (lines 252-258, 265-271,
276-283, 288-295) only read fields in this same required set, and
their accesses to `order_number` (line 266) and `country` (line 270)
occur in the same relative order as lines 274/287, so neither the
success condition nor the reported missing-field name changes.  (For
the line-227 selection pandas lists every missing label in one error;
the model names the first.) -/
def runColumns (shipCols shopCols : List String) :
    Except String (List String × List String) :=
  let sc := shipCols.map renameShipCol
  let pc := shopCols.map renameShopCol
  if ("shipping_cost_rmb") ∈ sc then
    let sc := sc ++ ["shipping_cost_usd"]
    if ("country_chinese") ∈ sc then
      let sc := sc ++ ["country_from_shipping"]
      if ("tracking_number") ∈ sc then
        if ("weight_kg") ∈ sc then
          if ("ship_date") ∈ sc then
            if ("tracking_number") ∈ pc then
              if ("net_payout") ∈ pc then
                if ("product_cost") ∈ pc then
                  if ("order_number") ∈ pc then
                    if ("country") ∈ pc then
                      Except.ok (sc, pc)
                    else Except.error ("country")
                  else Except.error ("order_number")
                else Except.error ("product_cost")
              else Except.error ("net_payout")
            else Except.error ("tracking_number")
          else Except.error ("ship_date")
        else Except.error ("weight_kg")
      else Except.error ("tracking_number")
    else Except.error ("country_chinese")
  else Except.error ("shipping_cost_rmb")

/-- Concrete shipping row: tracking `T1`, cost 100 RMB, country 美国. -/
def shipT1 : ShipRow :=
  { tracking_number := some ("T1")
    shipping_cost_rmb := Val.num 100
    weight_kg := Val.num 1
    ship_date := some ("2024-01-02")
    country_chinese := some ("美国")
    internal_order_id := none }

/-- Concrete shipping row: tracking `T1`, cost 200 RMB. -/
def shipT1b : ShipRow :=
  { tracking_number := some ("T1")
    shipping_cost_rmb := Val.num 200
    weight_kg := Val.num 2
    ship_date := none
    country_chinese := some ("美国")
    internal_order_id := none }

/-- Concrete shipping row with a NaN tracking key. -/
def shipNoKey : ShipRow :=
  { tracking_number := none
    shipping_cost_rmb := Val.num 30
    weight_kg := Val.nan
    ship_date := none
    country_chinese := some ("德国")
    internal_order_id := none }

/-- Concrete order row: order `O1` on tracking `T1`, payout 50. -/
def orderT1 : OrderRow :=
  { order_number := some ("O1")
    order_date := none
    tracking_number := some ("T1")
    net_payout := Val.num 50
    country := some ("United States")
    product_cost := Val.num 10 }

/-- Concrete order row on tracking `T1` with a zero net payout. -/
def orderT1zero : OrderRow :=
  { order_number := some ("O2")
    order_date := none
    tracking_number := some ("T1")
    net_payout := Val.num 0
    country := some ("United States")
    product_cost := Val.num 10 }

/-- Concrete order row with a NaN tracking key. -/
def orderNoKey : OrderRow :=
  { order_number := some ("O4")
    order_date := none
    tracking_number := none
    net_payout := Val.num 20
    country := some ("Germany")
    product_cost := Val.num 5 }

/-- Concrete order row on a non-4PX tracking key with no shipment. -/
def orderDHL : OrderRow :=
  { order_number := some ("O5")
    order_date := none
    tracking_number := some ("DHL999")
    net_payout := Val.num 40
    country := some ("France")
    product_cost := Val.num 8 }

/-- The joined row produced by matching `orderT1zero` (zero payout)
with `shipT1`. -/
def exRowC2 : MergedRow :=
  addDerived (mkBoth orderT1zero (normalizeShip shipT1))

@[simp] lemma mkBoth_tracking (o : OrderRow) (s : ShipN) :
    (mkBoth o s).tracking_number = o.tracking_number := rfl

@[simp] lemma mkLeftOnly_tracking (o : OrderRow) :
    (mkLeftOnly o).tracking_number = o.tracking_number := rfl

@[simp] lemma mkRightOnly_tracking (s : ShipN) :
    (mkRightOnly s).tracking_number = s.tracking_number := rfl

@[simp] lemma addDerived_tracking (r : MergedRow) :
    (addDerived r).tracking_number = r.tracking_number := rfl

@[simp] lemma addDerived_tag (r : MergedRow) : (addDerived r).tag = r.tag := rfl

@[simp] lemma mkBoth_tag (o : OrderRow) (s : ShipN) : (mkBoth o s).tag = MergeTag.both := rfl

@[simp] lemma mkLeftOnly_tag (o : OrderRow) : (mkLeftOnly o).tag = MergeTag.left_only := rfl

@[simp] lemma mkRightOnly_tag (s : ShipN) : (mkRightOnly s).tag = MergeTag.right_only := rfl

@[simp] lemma normalizeShip_tracking (r : ShipRow) :
    (normalizeShip r).tracking_number = r.tracking_number := rfl

/-- Joined rows contributed by one shopify row, counted at key `k`. -/
lemma countKey_emitLeft (ss : List ShipN) (o : OrderRow) (k : Option String) :
    countKey (emitLeft ss o) k =
      if o.tracking_number = k then
        (if countShipN ss k = 0 then 1 else countShipN ss k)
      else 0 := by
  have hlen : (ss.filter fun s => decide (s.tracking_number = o.tracking_number)).length =
      countShipN ss o.tracking_number :=
    (List.countP_eq_length_filter _ _).symm
  by_cases hk : o.tracking_number = k
  · subst hk
    rw [if_pos rfl]
    by_cases hz : countShipN ss o.tracking_number = 0
    · have hnil : (ss.filter fun s => decide (s.tracking_number = o.tracking_number)) = [] :=
        List.length_eq_zero.mp (by rw [hlen, hz])
      rw [if_pos hz, emitLeft, if_pos (by simp [hnil])]
      simp [countKey, List.countP_cons]
    · have hne : ¬ (ss.filter fun s => decide (s.tracking_number = o.tracking_number)).isEmpty := by
        simp only [List.isEmpty_eq_true]
        intro hnil
        exact hz (by rw [← hlen, hnil]; rfl)
      rw [if_neg hz, emitLeft, if_neg hne, countKey, List.countP_map]
      rw [← hlen]
      exact List.countP_eq_length.mpr (by intro r _; simp [Function.comp])
  · rw [if_neg hk, emitLeft]
    by_cases he : (ss.filter fun s => decide (s.tracking_number = o.tracking_number)).isEmpty
    · rw [if_pos he]
      simp [countKey, List.countP_cons, hk]
    · rw [if_neg he, countKey, List.countP_map]
      exact List.countP_eq_zero.mpr (by intro r _; simp [Function.comp, hk])

/-- Key-count of the left part of the outer merge. -/
lemma countKey_mergeLeft (os : List OrderRow) (ss : List ShipN) (k : Option String) :
    countKey (mergeLeft os ss) k =
      countOrd os k * (if countShipN ss k = 0 then 1 else countShipN ss k) := by
  induction os with
  | nil => simp [mergeLeft, countKey, countOrd]
  | cons o rest ih =>
    have hsplit : countKey (mergeLeft (o :: rest) ss) k =
        countKey (emitLeft ss o) k + countKey (mergeLeft rest ss) k := by
      simp only [mergeLeft, countKey, List.countP_append]
    have hcons : countOrd (o :: rest) k =
        countOrd rest k + (if o.tracking_number = k then 1 else 0) := by
      simp only [countOrd, List.countP_cons, decide_eq_true_eq]
    rw [hsplit, ih, countKey_emitLeft, hcons]
    by_cases hk : o.tracking_number = k
    · rw [if_pos hk, if_pos hk]
      ring
    · rw [if_neg hk, if_neg hk]
      ring

/-- Key-count of the right part of the outer merge. -/
lemma countKey_mergeRight (os : List OrderRow) (ss : List ShipN) (k : Option String) :
    countKey (mergeRight os ss) k =
      if countOrd os k = 0 then countShipN ss k else 0 := by
  have hORD : countOrd os k = 0 ↔
      (os.all fun o => decide (o.tracking_number ≠ k)) = true := by
    simp [countOrd, List.countP_eq_zero, List.all_eq_true]
  rw [mergeRight, countKey, List.countP_map]
  have hfuse :
      List.countP ((fun r => decide (r.tracking_number = k)) ∘ mkRightOnly)
        (ss.filter fun s => os.all fun o => decide (o.tracking_number ≠ s.tracking_number)) =
      List.countP
        (fun s => decide (s.tracking_number = k) &&
          (os.all fun o => decide (o.tracking_number ≠ s.tracking_number))) ss := by
    rw [List.countP_filter]
    rfl
  rw [hfuse]
  have hpt : (fun s : ShipN => decide (s.tracking_number = k) &&
        (os.all fun o => decide (o.tracking_number ≠ s.tracking_number))) =
      (fun s : ShipN => decide (s.tracking_number = k) &&
        (os.all fun o => decide (o.tracking_number ≠ k))) := by
    funext s
    by_cases hsk : s.tracking_number = k
    · rw [hsk]
    · simp [hsk]
  rw [hpt]
  by_cases h : countOrd os k = 0
  · rw [if_pos h, hORD.mp h]
    simp [countShipN]
  · rw [if_neg h]
    have hfalse : (os.all fun o => decide (o.tracking_number ≠ k)) = false := by
      cases hb : (os.all fun o => decide (o.tracking_number ≠ k))
      · rfl
      · exact absurd (hORD.mpr hb) h
    rw [hfalse]
    simp

/-- Key-count of the full outer merge. -/
lemma countKey_mergeOuter (os : List OrderRow) (ss : List ShipN) (k : Option String) :
    countKey (mergeOuter os ss) k =
      countOrd os k * (if countShipN ss k = 0 then 1 else countShipN ss k) +
        (if countOrd os k = 0 then countShipN ss k else 0) := by
  rw [mergeOuter, countKey, List.countP_append, ← countKey, ← countKey,
    countKey_mergeLeft, countKey_mergeRight]

/-- Normalization preserves the per-key shipping-row count. -/
lemma countShipN_map (ss : List ShipRow) (k : Option String) :
    countShipN (ss.map normalizeShip) k = countShip ss k := by
  rw [countShipN, List.countP_map]
  rfl

/-- The derived-metric pass preserves the per-key joined-row count. -/
lemma countKey_map_addDerived (rows : List MergedRow) (k : Option String) :
    countKey (rows.map addDerived) k = countKey rows k := by
  rw [countKey, List.countP_map]
  rfl

/-- Key-count of the full `process_data` output, in terms of the raw
per-key input counts. -/
lemma countKey_processData (ss : List ShipRow) (os : List OrderRow) (k : Option String) :
    countKey (processData ss os) k =
      countOrd os k * (if countShip ss k = 0 then 1 else countShip ss k) +
        (if countOrd os k = 0 then countShip ss k else 0) := by
  rw [processData, countKey_map_addDerived, countKey_mergeOuter, countShipN_map]

/-- Inversion of membership in `emitLeft`. -/
lemma mem_emitLeft {ss : List ShipN} {o : OrderRow} {r : MergedRow} (hr : r ∈ emitLeft ss o) :
    (∃ s ∈ ss, s.tracking_number = o.tracking_number ∧ r = mkBoth o s) ∨
    (countShipN ss o.tracking_number = 0 ∧ r = mkLeftOnly o) := by
  rw [emitLeft] at hr
  by_cases he : (ss.filter fun s => decide (s.tracking_number = o.tracking_number)).isEmpty
  · rw [if_pos he] at hr
    right
    refine ⟨?_, by simpa using hr⟩
    rw [countShipN, List.countP_eq_length_filter, List.isEmpty_eq_true.mp he]
    rfl
  · rw [if_neg he] at hr
    left
    obtain ⟨s, hs, rfl⟩ := List.mem_map.mp hr
    have hsf := List.mem_filter.mp hs
    exact ⟨s, hsf.1, by simpa using hsf.2, rfl⟩

/-- Inversion of membership in `mergeLeft`. -/
lemma mem_mergeLeft {os : List OrderRow} {ss : List ShipN} {r : MergedRow}
    (hr : r ∈ mergeLeft os ss) : ∃ o ∈ os, r ∈ emitLeft ss o := by
  induction os with
  | nil => simp [mergeLeft] at hr
  | cons o rest ih =>
    rw [mergeLeft] at hr
    rcases List.mem_append.mp hr with h | h
    · exact ⟨o, List.mem_cons_self .., h⟩
    · obtain ⟨o2, ho2, hro2⟩ := ih h
      exact ⟨o2, List.mem_cons_of_mem _ ho2, hro2⟩

/-- Inversion of membership in `mergeRight`. -/
lemma mem_mergeRight {os : List OrderRow} {ss : List ShipN} {r : MergedRow}
    (hr : r ∈ mergeRight os ss) :
    ∃ s ∈ ss, (∀ o ∈ os, o.tracking_number ≠ s.tracking_number) ∧ r = mkRightOnly s := by
  rw [mergeRight] at hr
  obtain ⟨s, hs, rfl⟩ := List.mem_map.mp hr
  have hsf := List.mem_filter.mp hs
  refine ⟨s, hsf.1, ?_, rfl⟩
  have := hsf.2
  simpa [List.all_eq_true] using this

/-- A shopify row with no matching shipping key contributes exactly its
`left_only` row. -/
lemma emitLeft_of_no_match {ss : List ShipN} {o : OrderRow}
    (h : countShipN ss o.tracking_number = 0) : emitLeft ss o = [mkLeftOnly o] := by
  rw [emitLeft, if_pos]
  rw [List.isEmpty_eq_true, ← List.length_eq_zero]
  rw [countShipN, List.countP_eq_length_filter] at h
  exact h

/-- Rows contributed by a member shopify row are in `mergeLeft`. -/
lemma mem_mergeLeft_of {os : List OrderRow} {ss : List ShipN} {o : OrderRow} {r : MergedRow}
    (ho : o ∈ os) (hr : r ∈ emitLeft ss o) : r ∈ mergeLeft os ss := by
  induction os with
  | nil => cases ho
  | cons o2 rest ih =>
    rw [mergeLeft, List.mem_append]
    rcases List.mem_cons.mp ho with h | h
    · subst h
      exact Or.inl hr
    · exact Or.inr (ih h)

/-- Every output row's `shipping_pct` is the line-234 formula applied
to its own cost and payout cells. -/
lemma shipping_pct_eq {ss : List ShipRow} {os : List OrderRow} {r : MergedRow}
    (hr : r ∈ processData ss os) :
    r.shipping_pct =
      Val.roundTo2 (Val.mul (Val.div r.shipping_cost_usd r.net_payout) (Val.num 100)) := by
  obtain ⟨r0, _, rfl⟩ := List.mem_map.mp hr
  rfl

/-- The pct formula on a NaN payout is NaN. -/
lemma pct_nan_payout (c : Val) :
    Val.roundTo2 (Val.mul (Val.div c Val.nan) (Val.num 100)) = Val.nan := by
  cases c <;> rfl

/-- The pct formula on a NaN cost is NaN. -/
lemma pct_nan_cost (p : Val) :
    Val.roundTo2 (Val.mul (Val.div Val.nan p) (Val.num 100)) = Val.nan := by
  cases p <;> rfl

/-- The pct formula on zero cost over zero payout is NaN (`0/0`). -/
lemma pct_zero_zero :
    Val.roundTo2 (Val.mul (Val.div (Val.num 0) (Val.num 0)) (Val.num 100)) = Val.nan := by
  norm_num [Val.div, Val.mul, Val.roundTo2]

/-- The pct formula on a positive cost over zero payout is `+inf`. -/
lemma pct_pos_zero {q : ℚ} (h : 0 < q) :
    Val.roundTo2 (Val.mul (Val.div (Val.num q) (Val.num 0)) (Val.num 100)) = Val.pinf := by
  norm_num [Val.div, Val.mul, Val.roundTo2, h, h.ne']

/-- The pct formula on a negative cost over zero payout is `-inf`. -/
lemma pct_neg_zero {q : ℚ} (h : q < 0) :
    Val.roundTo2 (Val.mul (Val.div (Val.num q) (Val.num 0)) (Val.num 100)) = Val.ninf := by
  norm_num [Val.div, Val.mul, Val.roundTo2, h, h.ne, not_lt_of_gt h]

/-- Inversion of membership in the `process_data` output: every output
row is a matched pair, an unmatched shopify row, or an unmatched
shipping row. -/
lemma mem_processData {ss : List ShipRow} {os : List OrderRow} {r : MergedRow}
    (hr : r ∈ processData ss os) :
    (∃ o ∈ os, ∃ s ∈ ss.map normalizeShip, s.tracking_number = o.tracking_number ∧
        r = addDerived (mkBoth o s)) ∨
    (∃ o ∈ os, countShip ss o.tracking_number = 0 ∧ r = addDerived (mkLeftOnly o)) ∨
    (∃ s ∈ ss.map normalizeShip, (∀ o ∈ os, o.tracking_number ≠ s.tracking_number) ∧
        r = addDerived (mkRightOnly s)) := by
  obtain ⟨r0, hr0, rfl⟩ := List.mem_map.mp hr
  rcases List.mem_append.mp hr0 with h | h
  · obtain ⟨o, ho, hoe⟩ := mem_mergeLeft h
    rcases mem_emitLeft hoe with ⟨s, hs, hst, rfl⟩ | ⟨hcnt, rfl⟩
    · exact Or.inl ⟨o, ho, s, hs, hst, rfl⟩
    · exact Or.inr (Or.inl ⟨o, ho, by rwa [countShipN_map] at hcnt, rfl⟩)
  · obtain ⟨s, hs, hall, rfl⟩ := mem_mergeRight h
    exact Or.inr (Or.inr ⟨s, hs, hall, rfl⟩)

/-- C1: for every tracking key `k` (non-null) present in both
canonical collections, the joined output carries exactly
(#shipment rows with `k`) × (#order rows with `k`) rows with key `k`;
and no input row is silently dropped: at every key, the joined row
count dominates both input row counts. -/
theorem claim_C1 (ss : List ShipRow) (os : List OrderRow) (k : String)
    (hs : 0 < countShip ss (some k)) (ho : 0 < countOrd os (some k)) :
    countKey (processData ss os) (some k) =
      countShip ss (some k) * countOrd os (some k) ∧
    ∀ kv : Option String,
      countShip ss kv ≤ countKey (processData ss os) kv ∧
      countOrd os kv ≤ countKey (processData ss os) kv := by
  constructor
  · rw [countKey_processData, if_neg (Nat.pos_iff_ne_zero.mp hs),
      if_neg (Nat.pos_iff_ne_zero.mp ho)]
    ring
  · intro kv
    rw [countKey_processData]
    by_cases h1 : countShip ss kv = 0
    · by_cases h2 : countOrd os kv = 0 <;> simp [h1, h2]
    · by_cases h2 : countOrd os kv = 0
      · simp [h1, h2]
      · rw [if_neg h1, if_neg h2]
        constructor
        · calc countShip ss kv = 1 * countShip ss kv := (Nat.one_mul _).symm
            _ ≤ countOrd os kv * countShip ss kv :=
              Nat.mul_le_mul_right _ (Nat.pos_of_ne_zero h2)
            _ ≤ _ := Nat.le_add_right _ _
        · calc countOrd os kv = countOrd os kv * 1 := (Nat.mul_one _).symm
            _ ≤ countOrd os kv * countShip ss kv :=
              Nat.mul_le_mul_left _ (Nat.pos_of_ne_zero h1)
            _ ≤ _ := Nat.le_add_right _ _

/-- C1 witness: two shipment rows and one order row share key `T1`;
the joined output has 2 × 1 rows with that key. -/
theorem claim_C1_witness :
    countKey (processData [shipT1, shipT1b] [orderT1]) (some ("T1")) =
      countShip [shipT1, shipT1b] (some ("T1")) * countOrd [orderT1] (some ("T1")) :=
  (claim_C1 [shipT1, shipT1b] [orderT1] ("T1") (by decide) (by decide)).1

unseal Rat.mul Rat.inv Rat.add Rat.sub in
/-- C2 counterexample: a matched row with a zero net payout and cost
13.9 USD gets `shipping_pct = +inf`, which is not null — the claim
that a zero payout always yields a null `shipping_pct` fails. -/
theorem claim_C2_counterexample :
    (processData [shipT1] [orderT1zero]).map (fun r => (r.net_payout, r.shipping_pct)) =
      [(Val.num 0, Val.pinf)] ∧ Val.pinf ≠ Val.nan := by
  exact ⟨by decide, by decide⟩

/-- C2 (amended): `shipping_pct` is null whenever `net_payout` is null
or the shipment cost is null, and when both cost and payout are zero;
a zero payout under a nonzero non-null cost instead yields a (non-null)
signed infinity.  The computation is total — no division error is ever
raised. -/
theorem claim_C2 (ss : List ShipRow) (os : List OrderRow) (r : MergedRow)
    (hr : r ∈ processData ss os) :
    (r.net_payout = Val.nan → r.shipping_pct = Val.nan) ∧
    (r.shipping_cost_usd = Val.nan → r.shipping_pct = Val.nan) ∧
    (r.net_payout = Val.num 0 → r.shipping_cost_usd = Val.num 0 →
      r.shipping_pct = Val.nan) ∧
    (∀ q : ℚ, r.net_payout = Val.num 0 → r.shipping_cost_usd = Val.num q → q ≠ 0 →
      r.shipping_pct = Val.pinf ∨ r.shipping_pct = Val.ninf) := by
  have hp := shipping_pct_eq hr
  refine ⟨?_, ?_, ?_, ?_⟩
  · intro h
    rw [hp, h]
    exact pct_nan_payout _
  · intro h
    rw [hp, h]
    exact pct_nan_cost _
  · intro h1 h2
    rw [hp, h1, h2]
    exact pct_zero_zero
  · intro q h1 h2 hq
    rw [hp, h1, h2]
    rcases lt_or_gt_of_ne hq with hlt | hgt
    · exact Or.inr (pct_neg_zero hlt)
    · exact Or.inl (pct_pos_zero hgt)

unseal Rat.mul Rat.inv Rat.add Rat.sub in
/-- C2 witness: the zero-payout matched row is in the output and its
`shipping_pct` is a signed infinity. -/
theorem claim_C2_witness :
    exRowC2.shipping_pct = Val.pinf ∨ exRowC2.shipping_pct = Val.ninf :=
  (claim_C2 [shipT1] [orderT1zero] exRowC2 (by decide)).2.2.2 (139 / 10)
    (by decide) (by decide) (by norm_num)

unseal Rat.mul Rat.inv Rat.add Rat.sub in
/-- C3 counterexample: a null-keyed shipment row and a null-keyed
order row are paired with each other by the merge (pandas matches NaN
keys): the output is a single `both`-tagged row, and no row is tagged
`shipment_only` (`right_only`), contradicting the claim that each
null-keyed row surfaces as its own one-sided row. -/
theorem claim_C3_counterexample :
    (processData [shipNoKey] [orderNoKey]).map (fun r => (r.tracking_number, r.tag)) =
      [(none, MergeTag.both)] ∧
    ¬ ∃ r ∈ processData [shipNoKey] [orderNoKey], r.tag = MergeTag.right_only := by
  exact ⟨by decide, by decide⟩

/-- C3 (amended): a null tracking key is joined like any ordinary key.
When both sides contain null-keyed rows, those rows pair into
(#null shipments) × (#null orders) rows all tagged `matched`; a
null-keyed row surfaces as `shipment_only` / `order_only` exactly when
the other side contains no null-keyed row, and then each such row
yields one output row. -/
theorem claim_C3 (ss : List ShipRow) (os : List OrderRow) :
    (0 < countOrd os none → 0 < countShip ss none →
      countKey (processData ss os) none = countShip ss none * countOrd os none ∧
      ∀ r ∈ processData ss os, r.tracking_number = none → r.tag = MergeTag.both) ∧
    (countShip ss none = 0 →
      countKey (processData ss os) none = countOrd os none ∧
      ∀ r ∈ processData ss os, r.tracking_number = none → r.tag = MergeTag.left_only) ∧
    (countOrd os none = 0 →
      countKey (processData ss os) none = countShip ss none ∧
      ∀ r ∈ processData ss os, r.tracking_number = none → r.tag = MergeTag.right_only) := by
  refine ⟨?_, ?_, ?_⟩
  · intro ho hs
    constructor
    · rw [countKey_processData, if_neg (Nat.pos_iff_ne_zero.mp hs),
        if_neg (Nat.pos_iff_ne_zero.mp ho)]
      ring
    · intro r hr htk
      rcases mem_processData hr with ⟨o, ho2, s, hs2, hst, rfl⟩ | ⟨o, ho2, hcnt, rfl⟩ |
        ⟨s, hs2, hall, rfl⟩
      · simp
      · exfalso
        simp only [addDerived_tracking, mkLeftOnly_tracking] at htk
        rw [htk] at hcnt
        omega
      · exfalso
        simp only [addDerived_tracking, mkRightOnly_tracking] at htk
        obtain ⟨o, ho2, hok⟩ := List.countP_pos_iff.mp ho
        exact hall o ho2 (by simpa [htk] using hok)
  · intro hs
    constructor
    · rw [countKey_processData, if_pos hs]
      by_cases h2 : countOrd os none = 0 <;> simp [h2, hs]
    · intro r hr htk
      rcases mem_processData hr with ⟨o, ho2, s, hs2, hst, rfl⟩ | ⟨o, ho2, hcnt, rfl⟩ |
        ⟨s, hs2, hall, rfl⟩
      · exfalso
        simp only [addDerived_tracking, mkBoth_tracking] at htk
        have hzero : 0 < countShipN (ss.map normalizeShip) none :=
          List.countP_pos_iff.mpr ⟨s, hs2, by simp [hst, htk]⟩
        rw [countShipN_map, hs] at hzero
        omega
      · simp
      · exfalso
        simp only [addDerived_tracking, mkRightOnly_tracking] at htk
        have hzero : 0 < countShipN (ss.map normalizeShip) none :=
          List.countP_pos_iff.mpr ⟨s, hs2, by simp [htk]⟩
        rw [countShipN_map, hs] at hzero
        omega
  · intro ho
    constructor
    · rw [countKey_processData, if_pos ho]
      simp [ho]
    · intro r hr htk
      rcases mem_processData hr with ⟨o, ho2, s, hs2, hst, rfl⟩ | ⟨o, ho2, hcnt, rfl⟩ |
        ⟨s, hs2, hall, rfl⟩
      · exfalso
        simp only [addDerived_tracking, mkBoth_tracking] at htk
        have hzero : 0 < countOrd os none :=
          List.countP_pos_iff.mpr ⟨o, ho2, by simp [htk]⟩
        omega
      · exfalso
        simp only [addDerived_tracking, mkLeftOnly_tracking] at htk
        have hzero : 0 < countOrd os none :=
          List.countP_pos_iff.mpr ⟨o, ho2, by simp [htk]⟩
        omega
      · simp

/-- C3 witness: with one null-keyed row on each side, the joined
output has exactly 1 × 1 rows with the null key. -/
theorem claim_C3_witness :
    countKey (processData [shipNoKey] [orderNoKey]) none =
      countShip [shipNoKey] none * countOrd [orderNoKey] none :=
  ((claim_C3 [shipNoKey] [orderNoKey]).1 (by decide) (by decide)).1

/-- C8: every shipment record produced by the normalization step has
`shipping_cost_usd = shipping_cost_rmb * RMB_TO_USD` (over the exact
IEEE cell arithmetic of the embedding). -/
theorem claim_C8 (ss : List ShipRow) (r : ShipN) (hr : r ∈ ss.map normalizeShip) :
    r.shipping_cost_usd = Val.mul r.shipping_cost_rmb (Val.num RMB_TO_USD) := by
  obtain ⟨r0, _, rfl⟩ := List.mem_map.mp hr
  rfl

/-- C8 witness at the concrete row `shipT1`. -/
theorem claim_C8_witness :
    (normalizeShip shipT1).shipping_cost_usd =
      Val.mul (normalizeShip shipT1).shipping_cost_rmb (Val.num RMB_TO_USD) :=
  claim_C8 [shipT1] (normalizeShip shipT1) (List.mem_map_of_mem _ (List.mem_singleton.mpr rfl))

/-- C9: a country label absent from the dictionary passes through
`translate_country` unchanged, and normalization never drops a record
(the output collection has the same length as the input). -/
theorem claim_C9 (c : String) (ss : List ShipRow) :
    (COUNTRY_MAP.lookup c = none → translate_country c = c) ∧
    (ss.map normalizeShip).length = ss.length := by
  constructor
  · intro h
    rw [translate_country, h]
    rfl
  · exact List.length_map ..

/-- C9 witness: the unmapped label `Atlantis` passes through. -/
theorem claim_C9_witness : translate_country ("Atlantis") = ("Atlantis") :=
  (claim_C9 ("Atlantis") []).1 (by decide)

/-- C10: the pipeline is deterministic — on equal input batches the
joined record collection and the issue report are equal (the embedding
is a pure function of the two input collections and the process-wide
constants). -/
theorem claim_C10 (ss1 ss2 : List ShipRow) (os1 os2 : List OrderRow)
    (hs : ss1 = ss2) (ho : os1 = os2) :
    processData ss1 os1 = processData ss2 os2 ∧
    identifyIssues (processData ss1 os1) os1 =
      identifyIssues (processData ss2 os2) os2 := by
  subst hs
  subst ho
  exact ⟨rfl, rfl⟩

/-- C10 witness at a concrete input pair. -/
theorem claim_C10_witness :
    processData [shipT1] [orderT1] = processData [shipT1] [orderT1] :=
  (claim_C10 [shipT1] [shipT1] [orderT1] [orderT1] rfl rfl).1

/-- Membership in `uniqAux`. -/
lemma mem_uniqAux (l : List String) : ∀ (seen : List String) (x : String),
    x ∈ uniqAux seen l ↔ x ∈ l ∧ x ∉ seen := by
  induction l with
  | nil =>
    intro seen x
    simp [uniqAux]
  | cons a xs ih =>
    intro seen x
    rw [uniqAux]
    by_cases ha : a ∈ seen
    · rw [if_pos ha, ih seen x]
      constructor
      · rintro ⟨h1, h2⟩
        exact ⟨List.mem_cons_of_mem _ h1, h2⟩
      · rintro ⟨h1, h2⟩
        rcases List.mem_cons.mp h1 with rfl | h1b
        · exact absurd ha h2
        · exact ⟨h1b, h2⟩
    · rw [if_neg ha]
      constructor
      · intro hx
        rcases List.mem_cons.mp hx with rfl | hx2
        · exact ⟨List.mem_cons_self .., ha⟩
        · obtain ⟨h1, h2⟩ := (ih (a :: seen) x).mp hx2
          exact ⟨List.mem_cons_of_mem _ h1,
            fun hc => h2 (List.mem_cons_of_mem _ hc)⟩
      · rintro ⟨h1, h2⟩
        rcases List.mem_cons.mp h1 with rfl | h1b
        · exact List.mem_cons_self ..
        · by_cases hxa : x = a
          · subst hxa
            exact List.mem_cons_self ..
          · refine List.mem_cons_of_mem _ ((ih (a :: seen) x).mpr ⟨h1b, ?_⟩)
            intro hc
            rcases List.mem_cons.mp hc with h | h
            · exact hxa h
            · exact h2 h

/-- Membership in `uniqKeep` is membership in the underlying list. -/
lemma mem_uniqKeep (l : List String) (x : String) : x ∈ uniqKeep l ↔ x ∈ l := by
  rw [uniqKeep, mem_uniqAux]
  simp

/-- Characterization of the multi-tracking entries. -/
lemma mem_multiTracking {os : List OrderRow} {e : MultiTrackingEntry} :
    e ∈ multiTracking os ↔
      ∃ oid, oid ∈ uniqKeep (os.filterMap fun r => r.order_number) ∧
        1 < (orderRowsFor os oid).length ∧
        e = { order := oid
              count := (orderRowsFor os oid).length
              trackings := (orderRowsFor os oid).map fun r => r.tracking_number
              net_payout :=
                (((orderRowsFor os oid).head?).map fun r => r.net_payout).getD Val.nan } := by
  rw [multiTracking, List.mem_filterMap]
  constructor
  · rintro ⟨oid, ho, he⟩
    simp only at he
    split at he
    · exact ⟨oid, ho, by assumption, (Option.some.inj he).symm⟩
    · cases he
  · rintro ⟨oid, ho, hlen, rfl⟩
    refine ⟨oid, ho, ?_⟩
    simp only
    rw [if_pos hlen]

/-- C4 (amended): the detector reports an entry for an order id iff
that id appears on at least 2 rows, and the entry carries the row
count, the payout of the first such row, and the full list of the
rows' tracking keys in source order — duplicates retained, not the
deduplicated set. -/
theorem claim_C4 (os : List OrderRow) (oid : String) :
    ((∃ e ∈ multiTracking os, e.order = oid) ↔ 2 ≤ (orderRowsFor os oid).length) ∧
    (∀ e ∈ multiTracking os, e.order = oid →
      e.count = (orderRowsFor os oid).length ∧
      e.trackings = (orderRowsFor os oid).map (fun r => r.tracking_number) ∧
      e.net_payout =
        (((orderRowsFor os oid).head?).map fun r => r.net_payout).getD Val.nan) := by
  constructor
  · constructor
    · rintro ⟨e, he, heo⟩
      obtain ⟨oid2, _, hlen, rfl⟩ := mem_multiTracking.mp he
      have : oid2 = oid := heo
      subst this
      exact hlen
    · intro hlen
      obtain ⟨r, hr⟩ : ∃ r, r ∈ orderRowsFor os oid := by
        cases h : orderRowsFor os oid with
        | nil => rw [h] at hlen; simp at hlen
        | cons a t =>
          exact ⟨a, h.symm ▸ List.mem_cons_self a t⟩
      have hmem := List.mem_filter.mp hr
      have hoid : r.order_number = some oid := by simpa using hmem.2
      have hin : oid ∈ os.filterMap fun r => r.order_number :=
        List.mem_filterMap.mpr ⟨r, hmem.1, hoid⟩
      exact ⟨_, mem_multiTracking.mpr
        ⟨oid, (mem_uniqKeep _ _).mpr hin, by omega, rfl⟩, rfl⟩
  · intro e he heo
    obtain ⟨oid2, _, hlen, rfl⟩ := mem_multiTracking.mp he
    have : oid2 = oid := heo
    subst this
    exact ⟨rfl, rfl, rfl⟩

/-- C4 counterexample: two rows of order `O1` both carry tracking key
`T1`; the reported tracking list is `[T1, T1]` — the duplicate is NOT
removed, contradicting the claim that the list holds exactly the
distinct tracking keys. -/
theorem claim_C4_counterexample :
    (multiTracking [orderT1, orderT1]).map (fun e => e.trackings) =
      [[some ("T1"), some ("T1")]] ∧
    ¬ ∀ e ∈ multiTracking [orderT1, orderT1], e.trackings.Nodup := by
  exact ⟨by decide, by decide⟩

/-- C4 witness: the two-row order `O1` is flagged with count 2,
trackings `[T1, T1]` and the first row's payout. -/
theorem claim_C4_witness :
    ({ order := ("O1"), count := 2, trackings := [some ("T1"), some ("T1")],
       net_payout := Val.num 50 } : MultiTrackingEntry).count =
      (orderRowsFor [orderT1, orderT1] ("O1")).length ∧
    ({ order := ("O1"), count := 2, trackings := [some ("T1"), some ("T1")],
       net_payout := Val.num 50 } : MultiTrackingEntry).trackings =
      (orderRowsFor [orderT1, orderT1] ("O1")).map (fun r => r.tracking_number) ∧
    ({ order := ("O1"), count := 2, trackings := [some ("T1"), some ("T1")],
       net_payout := Val.num 50 } : MultiTrackingEntry).net_payout =
      (((orderRowsFor [orderT1, orderT1] ("O1")).head?).map fun r => r.net_payout).getD
        Val.nan :=
  (claim_C4 [orderT1, orderT1] ("O1")).2 _ (by decide) (by decide)

/-- C5: the country-mismatch collection holds exactly the entries of
the `matched` rows whose two country cells are both non-null and
unequal; a row with a null country cell is never flagged (and the
whole computation is a total function — it cannot raise). -/
theorem claim_C5 (merged : List MergedRow) (os : List OrderRow) :
    (identifyIssues merged os).country_mismatch =
      (merged.filter fun r => decide (r.tag = MergeTag.both ∧ r.country ≠ none ∧
          r.country_from_shipping ≠ none ∧ r.country ≠ r.country_from_shipping)).map
        (fun r => { order := r.order_number
                    tracking := r.tracking_number
                    shopify_country := r.country
                    shipping_country := r.country_from_shipping }) := by
  rw [identifyIssues]
  simp only
  rw [List.filter_filter, List.filter_filter]
  congr 1
  apply List.filter_congr
  intro r _
  by_cases ht : r.tag = MergeTag.both
  · cases hc : r.country <;> cases hcf : r.country_from_shipping <;>
      simp [pandasStrNe, ht, hc, hcf]
  · simp [ht]

/-- C6: the unmatched-orders collection holds exactly the entries of
the `order_only` rows whose tracking key contains the literal
substring `4PX`; and an order row with no matching shipment still
yields a joined row tagged `order_only` (so a non-4PX unmatched order
is excluded from the collection yet present in the joined output). -/
theorem claim_C6 (ss : List ShipRow) (os : List OrderRow) :
    ((identifyIssues (processData ss os) os).unmatched_orders =
      ((processData ss os).filter fun r =>
          decide (r.tag = MergeTag.left_only ∧ trackContains4PX r.tracking_number = true)).map
        (fun r => { order := r.order_number
                    tracking := r.tracking_number
                    net_payout := r.net_payout
                    country := r.country })) ∧
    (∀ o ∈ os, countShip ss o.tracking_number = 0 →
      addDerived (mkLeftOnly o) ∈ processData ss os ∧
      (addDerived (mkLeftOnly o)).tag = MergeTag.left_only) := by
  constructor
  · rw [identifyIssues]
    simp only
    congr 1
    apply List.filter_congr
    intro r _
    by_cases h1 : r.tag = MergeTag.left_only <;>
      by_cases h2 : trackContains4PX r.tracking_number = true <;>
        simp [h1, h2]
  · intro o ho h0
    refine ⟨?_, rfl⟩
    rw [processData]
    apply List.mem_map_of_mem
    rw [mergeOuter]
    apply List.mem_append.mpr
    left
    apply mem_mergeLeft_of ho
    rw [emitLeft_of_no_match (by rwa [countShipN_map])]
    exact List.mem_singleton.mpr rfl

/-- C6 witness: the order on tracking `DHL999` with no shipment
counterpart appears in the joined output tagged `order_only`. -/
theorem claim_C6_witness :
    addDerived (mkLeftOnly orderDHL) ∈ processData [] [orderDHL] ∧
    (addDerived (mkLeftOnly orderDHL)).tag = MergeTag.left_only :=
  (claim_C6 [] [orderDHL]).2 orderDHL (List.mem_singleton.mpr rfl) (by decide)

/-- C7 counterexample: a shipping table that resolves the tracking
key, the cost and the country but lacks the weight column (`计费重`),
with an order table resolving tracking, payout and product cost, still
aborts the run — the column selection of line 227 raises on the
missing canonical field `weight_kg`, although the claim allows aborts
only for a missing tracking key, cost or payout. -/
theorem claim_C7_counterexample :
    runColumns [("物流单号"), ("总金额"), ("国家/计费分区"), ("收货时间")]
        [("Order"), ("Tracking number"), ("Net payout"), ("Cost"), ("Shipping country")] =
      Except.error ("weight_kg") ∧
    ("tracking_number") ∈
      ([("物流单号"), ("总金额"), ("国家/计费分区"), ("收货时间")].map renameShipCol) ∧
    ("shipping_cost_rmb") ∈
      ([("物流单号"), ("总金额"), ("国家/计费分区"), ("收货时间")].map renameShipCol) ∧
    ("tracking_number") ∈
      ([("Order"), ("Tracking number"), ("Net payout"), ("Cost"),
        ("Shipping country")].map renameShopCol) ∧
    ("net_payout") ∈
      ([("Order"), ("Tracking number"), ("Net payout"), ("Cost"),
        ("Shipping country")].map renameShopCol) ∧
    ("product_cost") ∈
      ([("Order"), ("Tracking number"), ("Net payout"), ("Cost"),
        ("Shipping country")].map renameShopCol) := by
  exact ⟨by rfl, by decide, by decide, by decide, by decide, by decide⟩

set_option maxHeartbeats 1600000 in
/-- C7 (amended): the run — `process_data` followed by the
unconditional `identify_issues` call — aborts with an error naming a
missing canonical field iff any of the canonical columns
`shipping_cost_rmb`, `country_chinese`, `tracking_number`, `weight_kg`,
`ship_date` is unresolvable from the shipping table or any of
`tracking_number`, `net_payout`, `product_cost`, `order_number`,
`country` is unresolvable from the order table; no other condition
aborts the run. -/
theorem claim_C7 (shipCols shopCols : List String) :
    (∃ v, runColumns shipCols shopCols = Except.ok v) ↔
      (("shipping_cost_rmb") ∈ shipCols.map renameShipCol ∧
       ("country_chinese") ∈ shipCols.map renameShipCol ∧
       ("tracking_number") ∈ shipCols.map renameShipCol ∧
       ("weight_kg") ∈ shipCols.map renameShipCol ∧
       ("ship_date") ∈ shipCols.map renameShipCol ∧
       ("tracking_number") ∈ shopCols.map renameShopCol ∧
       ("net_payout") ∈ shopCols.map renameShopCol ∧
       ("product_cost") ∈ shopCols.map renameShopCol ∧
       ("order_number") ∈ shopCols.map renameShopCol ∧
       ("country") ∈ shopCols.map renameShopCol) := by
  rw [runColumns]
  simp only [List.mem_append, List.mem_singleton]
  split_ifs <;> simp_all

end ShippingAnalyzer
